import Mathlib

/-!
Shallow embedding of `deeplink_runner_qt.py` (ADB Deeplink Launcher).

The program keeps a store `{"history": [string...], "favorites":
[{"name", "deeplink"}...]}` persisted as one JSON file, enumerates
attached devices through the `adb` tool, and dispatches deep-link
intents.  External effects (subprocess invocations, file reads,
dialogs) are modelled as explicit parameters describing their outcome;
the pure state transitions are translated directly from the source.
-/

namespace DeeplinkRunner

/-- A favorites entry: `{"name": ..., "deeplink": ...}`. -/
structure Favorite where
  name : String
  deeplink : String
  deriving DecidableEq

/-- The persisted store: `{"history": [...], "favorites": [...]}`. -/
structure Store where
  history : List String
  favorites : List Favorite
  deriving DecidableEq

/-- The history-recording tail of `DeeplinkLauncher.launch`
(lines 349-352): if the deep-link is not already in history, insert at
index 0 and save.  The `Bool` component records whether `save_data`
was called (i.e. whether the store was persisted). -/
def recordLaunch (s : Store) (deeplink : String) : Store × Bool :=
  if deeplink ∈ s.history then (s, false)
  else ({ s with history := deeplink :: s.history }, true)

/-- C1: recordLaunch inserts an absent deep-link at position 0 and persists;
a present deep-link leaves the store unchanged (not moved to the front);
recording a fresh deep-link twice in a row nets exactly one new entry, at
the front. -/
theorem recordLaunch_spec (s : Store) (d : String) :
    (d ∉ s.history →
      recordLaunch s d = ({ s with history := d :: s.history }, true)) ∧
    (d ∈ s.history → recordLaunch s d = (s, false)) ∧
    (d ∉ s.history →
      ((recordLaunch (recordLaunch s d).1 d).1).history = d :: s.history) := by
  refine ⟨fun h => ?_, fun h => ?_, fun h => ?_⟩
  · simp [recordLaunch, h]
  · simp [recordLaunch, h]
  · simp [recordLaunch, h]

theorem recordLaunch_spec_witness :
    recordLaunch ⟨[], []⟩ "a" = (⟨["a"], []⟩, true) ∧
    ((recordLaunch (recordLaunch ⟨[], []⟩ "a").1 "a").1).history = ["a"] := by
  have h := recordLaunch_spec ⟨[], []⟩ "a"
  exact ⟨h.1 (by simp), h.2.2 (by simp)⟩

/-- Python's `str.strip()`: remove whitespace from both ends of the
string.  Written over the character list so that it evaluates by
kernel reduction. -/
def pyStrip (s : String) : String :=
  String.mk
    ((((s.data.dropWhile Char.isWhitespace).reverse.dropWhile
        Char.isWhitespace).reverse))

/-- Source function `run_deeplink` (lines 142-150).  `adbPath` is the module-global
`ADB_PATH` (`none` when `resolve_adb` found nothing).  `outcome cmd` is
what `subprocess.run(cmd, check=True)` does when it is actually
invoked: `Except.ok ()` for a zero exit, `Except.error e` for a raised
exception (`CalledProcessError` on non-zero exit, `OSError` when the
executable cannot be run).  The source returns silently when
`ADB_PATH` is falsy, before any invocation. -/
def run_deeplink (adbPath : Option String)
    (outcome : List String → Except String Unit)
    (device : Option String) (deeplink : String) : Except String Unit :=
  match adbPath with
  | none => Except.ok ()
  | some p =>
    let cmd := [p] ++
      (match device with
       | some d => ["-s", d]
       | none => []) ++
      ["shell", "am", "start", "-a", "android.intent.action.VIEW",
        "-d", deeplink]
    outcome cmd

/-- Source method `DeeplinkLauncher.launch` (lines 337-352), with the UI input field
and dialogs made explicit: strips the input, rejects an empty string
with a warning, invokes `run_deeplink`, and on an exception shows the
error and returns; otherwise it records the deep-link in history.  The
second component is the message of the dialog shown (`none` when no
warning/error dialog appeared). -/
def launch (adbPath : Option String)
    (outcome : List String → Except String Unit)
    (device : Option String) (s : Store) (input : String) :
    Store × Option String :=
  let deeplink := pyStrip input
  if deeplink = "" then (s, some "Введите диплинк")
  else
    match run_deeplink adbPath outcome device deeplink with
    | Except.error e => (s, some ("ADB error: " ++ e))
    | Except.ok _ => ((recordLaunch s deeplink).1, none)

/-- C3 counterexample: with the bridge tool unresolved (`ADB_PATH` is
`None`), `run_deeplink` returns silently instead of failing, and
`launch` then records the deep-link in history and reports no error —
contrary to the claim that the caller is told and no history entry is
recorded. -/
theorem launch_tool_missing_counterexample :
    run_deeplink none (fun _ => Except.error "exec failure") none "app://x"
        = Except.ok () ∧
    launch none (fun _ => Except.error "exec failure") none ⟨[], []⟩ "app://x"
        = (⟨["app://x"], []⟩, none) := by
  constructor
  · rfl
  · decide

/-- C3 (amended): when the bridge tool was resolved and its invocation
raises (non-zero exit or failure to execute), `launch` reports the
error to the caller and records no history entry; but when the tool
could not be located at startup, `run_deeplink` silently succeeds and
`launch` records the deep-link with no error. -/
theorem launch_error_spec (p e : String) (device : Option String)
    (s : Store) (input : String) :
    (pyStrip input ≠ "" →
      launch (some p) (fun _ => Except.error e) device s input
        = (s, some ("ADB error: " ++ e))) ∧
    (pyStrip input ≠ "" → pyStrip input ∉ s.history →
      launch none (fun _ => Except.error e) device s input
        = ({ s with history := pyStrip input :: s.history }, none)) := by
  constructor
  · intro h
    simp [launch, run_deeplink, h]
  · intro h h2
    simp [launch, run_deeplink, recordLaunch, h, h2]

theorem launch_error_spec_witness :
    launch (some "adb") (fun _ => Except.error "boom") none ⟨[], []⟩ "app://x"
        = (⟨[], []⟩, some "ADB error: boom") ∧
    launch none (fun _ => Except.error "boom") none ⟨[], []⟩ "app://x"
        = (⟨["app://x"], []⟩, none) := by
  have h := launch_error_spec "adb" "boom" none ⟨[], []⟩ "app://x"
  exact ⟨h.1 (by decide), h.2 (by decide) (by simp)⟩

/-- A parsed device row: `{"serial": ..., "model": ..., "android": ...}`. -/
structure Device where
  serial : String
  model : String
  android : String
  deriving DecidableEq

/-- Whether `pat` is a prefix of the character list. -/
def isPrefixCh : List Char → List Char → Bool
  | [], _ => true
  | _ :: _, [] => false
  | a :: as, b :: bs => a == b && isPrefixCh as bs

/-- Whether `pat` occurs as a contiguous substring of the character
list. -/
def occursCh (pat : List Char) : List Char → Bool
  | [] => pat.isEmpty
  | c :: cs => isPrefixCh pat (c :: cs) || occursCh pat cs

/-- The source's `"device" not in line` test (negated): whether the
substring `"device"` occurs in the line. -/
def lineHasDevice (line : String) : Bool :=
  occursCh "device".data line.data

/-- Python's `line.split()`: split on whitespace, dropping empty parts. -/
def lineParts (line : String) : List String :=
  (line.split Char.isWhitespace).filter (fun p => p ≠ "")

/-- The assignment `serial = parts[0]` of line 104. -/
def serialOf (line : String) : String := (lineParts line).headD ""

/-- The `model:` scan of lines 109-111: the last part starting with
`model:` wins, with the prefix removed and underscores replaced by
spaces; `"Unknown"` when no part matches. -/
def modelOf (line : String) : String :=
  (lineParts line).foldl
    (fun m part =>
      if part.startsWith "model:" then
        (part.replace "model:" "").replace "_" " "
      else m)
    "Unknown"

/-- The per-serial `getprop ro.build.version.release` query of lines
114-132.  `getprop serial` is the stripped stdout of the subprocess
(`none` when the query raised — timeout or any other failure).  The
placeholder `"?"` survives when the query fails or returns empty
output. -/
def androidOf (getprop : String → Option String) (serial : String) :
    String :=
  match getprop serial with
  | none => "?"
  | some v => if v = "" then "?" else v

/-- One iteration of the parsing loop of lines 99-134, producing the
`info` dict appended for a qualifying line. -/
def parseDevice (getprop : String → Option String) (line : String) :
    Device :=
  { serial := serialOf line
    model := modelOf line
    android := androidOf getprop (serialOf line) }

/-- Source function `get_devices_info` (lines 86-139).  `adbPath` is `ADB_PATH`;
`listing` is the outcome of `subprocess.run([ADB_PATH, "devices", "-l"],
..., check=True)`: `Except.error ()` when it raised (tool not
executable, non-zero exit, I/O error), `Except.ok lines` with
`lines = result.stdout.strip().splitlines()`.  When `ADB_PATH` is
falsy the source executes a bare `return`, i.e. returns `None` — hence
the `Option` result, with `none` standing for Python's `None`. -/
def get_devices_info (adbPath : Option String)
    (listing : Except Unit (List String))
    (getprop : String → Option String) : Option (List Device) :=
  match adbPath with
  | none => none
  | some _ =>
    match listing with
    | Except.error _ => some []
    | Except.ok lines =>
        some (((lines.drop 1).filter (fun l => lineHasDevice l)).map
          (parseDevice getprop))

/-- C4: when the bridge tool is missing, `get_devices_info` returns
Python's `None` (a bare `return`), not an empty list; when the
top-level listing command raises (non-zero exit, I/O error, tool not
executable), it returns the empty list with no error surfaced. -/
theorem get_devices_info_failure_modes (p : String)
    (listing : Except Unit (List String))
    (getprop : String → Option String) :
    get_devices_info none listing getprop = none ∧
    get_devices_info (some p) (Except.error ()) getprop = some [] :=
  ⟨rfl, rfl⟩

/-- C8: for a qualifying line of the listing, when the per-serial OS
version query fails or returns empty output, the parsed device carries
the placeholder `"?"` and is still included in the returned list. -/
theorem osversion_placeholder_spec (p : String) (lines : List String)
    (getprop : String → Option String) (line : String)
    (hline : line ∈ (lines.drop 1).filter (fun l => lineHasDevice l))
    (hfail : getprop (serialOf line) = none ∨
      getprop (serialOf line) = some "") :
    parseDevice getprop line ∈
      (get_devices_info (some p) (Except.ok lines) getprop).getD [] ∧
    (parseDevice getprop line).serial = serialOf line ∧
    (parseDevice getprop line).android = "?" := by
  refine ⟨?_, rfl, ?_⟩
  · simp only [get_devices_info, Option.getD_some]
    exact List.mem_map_of_mem _ hline
  · simp only [parseDevice, androidOf]
    rcases hfail with h | h <;> simp [h]

theorem osversion_placeholder_spec_witness :
    parseDevice (fun _ => none) "serial1 device model:Pixel_5" ∈
      (get_devices_info (some "adb")
        (Except.ok ["List of devices attached",
          "serial1 device model:Pixel_5"]) (fun _ => none)).getD [] ∧
    (parseDevice (fun _ => none)
        "serial1 device model:Pixel_5").android = "?" := by
  have h := osversion_placeholder_spec "adb"
    ["List of devices attached", "serial1 device model:Pixel_5"]
    (fun _ => none) "serial1 device model:Pixel_5"
    (by decide) (Or.inl rfl)
  exact ⟨h.1, h.2.2⟩

/-- The state of the backing file `deeplinks.json` as `load_data` finds
it: absent, unreadable/unparsable (open, read or `json.load` raised),
or successfully parsed to a store. -/
inductive DataFile where
  | absent
  | unreadable
  | parsed (s : Store)

/-- Source function `load_data` (lines 154-162): missing file or any read/parse failure
yields the empty store; otherwise the parsed document is returned. -/
def load_data (file : DataFile) : Store :=
  match file with
  | DataFile.absent => ⟨[], []⟩
  | DataFile.unreadable => ⟨[], []⟩
  | DataFile.parsed s => s

/-- C10: a missing backing file and a failed read/parse both yield the
empty store `{"history": [], "favorites": []}`; no error escapes. -/
theorem load_data_failure_empty :
    load_data DataFile.absent = ⟨[], []⟩ ∧
    load_data DataFile.unreadable = ⟨[], []⟩ :=
  ⟨rfl, rfl⟩

/-- One iteration of the merge loops of lines 507-518: append the item
and bump the counter when it is not already present, by exact value
equality. -/
def mergeStep {α : Type} [DecidableEq α] (acc : List α × Nat) (x : α) :
    List α × Nat :=
  if x ∈ acc.1 then acc else (acc.1 ++ [x], acc.2 + 1)

/-- The whole merge loop: fold `mergeStep` over the imported list,
starting from the current list and a zero counter. -/
def mergeList {α : Type} [DecidableEq α] (cur imp : List α) :
    List α × Nat :=
  imp.foldl mergeStep (cur, 0)

/-- The imported JSON document as `import_deeplinks` sees it after
`json.load`: either not a dict at all, or a dict whose `favorites` and
`history` keys may each be present or absent (`imported.get(k, [])`
supplies `[]` for an absent key). -/
inductive Doc where
  | notDict
  | dict (favorites : Option (List Favorite))
      (history : Option (List String))

/-- Source method `DeeplinkLauncher.import_deeplinks` (lines 501-520), after the file
has been read and parsed: validate that the document is a dict with a
`favorites` key (otherwise show the format error and leave the store
alone), then merge favorites and history, counting additions per
list.  The `Except` component is the outcome reported to the user. -/
def import_deeplinks (s : Store) (doc : Doc) :
    Store × Except String (Nat × Nat) :=
  match doc with
  | Doc.notDict => (s, Except.error "Некорректный формат файла")
  | Doc.dict favs hist =>
    match favs with
    | none => (s, Except.error "Некорректный формат файла")
    | some fs =>
      let mf := mergeList s.favorites fs
      let mh := mergeList s.history (hist.getD [])
      (⟨mh.1, mf.1⟩, Except.ok (mf.2, mh.2))

/-- C5: an imported document that is not a mapping or lacks the
`favorites` key is rejected with the format error and the store is
returned exactly as it was. -/
theorem import_invalid_doc_noop (s : Store) (doc : Doc)
    (h : doc = Doc.notDict ∨ ∃ hist, doc = Doc.dict none hist) :
    import_deeplinks s doc = (s, Except.error "Некорректный формат файла") := by
  rcases h with h | ⟨hist, h⟩ <;> subst h <;> rfl

theorem import_invalid_doc_noop_witness :
    import_deeplinks ⟨["a"], [⟨"n", "d"⟩]⟩ Doc.notDict
        = (⟨["a"], [⟨"n", "d"⟩]⟩, Except.error "Некорректный формат файла") ∧
    import_deeplinks ⟨["a"], [⟨"n", "d"⟩]⟩ (Doc.dict none (some ["b"]))
        = (⟨["a"], [⟨"n", "d"⟩]⟩, Except.error "Некорректный формат файла") :=
  ⟨import_invalid_doc_noop _ _ (Or.inl rfl),
   import_invalid_doc_noop _ _ (Or.inr ⟨some ["b"], rfl⟩)⟩

/-- Folding `mergeStep` over a duplicate-free list disjoint from the
accumulator appends the whole list and counts every element. -/
theorem foldl_mergeStep_disjoint {α : Type} [DecidableEq α] :
    ∀ (imp cur : List α) (n : Nat), imp.Nodup →
      (∀ x ∈ imp, x ∉ cur) →
      imp.foldl mergeStep (cur, n) = (cur ++ imp, n + imp.length)
  | [], cur, n, _, _ => by simp
  | x :: xs, cur, n, hnd, hdisj => by
    have hx : x ∉ cur := hdisj x (List.mem_cons_self x xs)
    have hnd' := (List.nodup_cons.mp hnd)
    have step : mergeStep (cur, n) x = (cur ++ [x], n + 1) := by
      simp [mergeStep, hx]
    have hdisj' : ∀ y ∈ xs, y ∉ cur ++ [x] := by
      intro y hy
      simp only [List.mem_append, List.mem_singleton]
      rintro (hc | hc)
      · exact hdisj y (List.mem_cons_of_mem _ hy) hc
      · exact hnd'.1 (hc ▸ hy)
    calc (x :: xs).foldl mergeStep (cur, n)
        = xs.foldl mergeStep (cur ++ [x], n + 1) := by
          rw [List.foldl_cons, step]
      _ = ((cur ++ [x]) ++ xs, (n + 1) + xs.length) :=
          foldl_mergeStep_disjoint xs (cur ++ [x]) (n + 1) hnd'.2 hdisj'
      _ = (cur ++ x :: xs, n + (x :: xs).length) := by
          simp [List.append_assoc]
          omega

/-- Every element of the imported list, and every element of the
accumulator, ends up in the merged list. -/
theorem foldl_mergeStep_mem {α : Type} [DecidableEq α] :
    ∀ (imp : List α) (p : List α × Nat) (x : α),
      x ∈ imp ∨ x ∈ p.1 → x ∈ (imp.foldl mergeStep p).1
  | [], p, x, h => by
    rcases h with h | h
    · exact absurd h (List.not_mem_nil x)
    · simpa using h
  | y :: ys, p, x, h => by
    rw [List.foldl_cons]
    apply foldl_mergeStep_mem ys (mergeStep p y) x
    have hsub : ∀ z ∈ p.1, z ∈ (mergeStep p y).1 := by
      intro z hz
      unfold mergeStep
      split <;> simp [hz]
    rcases h with h | h
    · rcases List.mem_cons.mp h with h | h
      · subst h
        refine Or.inr ?_
        unfold mergeStep
        split
        · assumption
        · simp
      · exact Or.inl h
    · exact Or.inr (hsub x h)

/-- Merging a list all of whose elements are already present changes
nothing and counts nothing. -/
theorem foldl_mergeStep_noop {α : Type} [DecidableEq α] :
    ∀ (imp cur : List α) (n : Nat), (∀ x ∈ imp, x ∈ cur) →
      imp.foldl mergeStep (cur, n) = (cur, n)
  | [], _, _, _ => rfl
  | x :: xs, cur, n, h => by
    have hx : x ∈ cur := h x (List.mem_cons_self x xs)
    rw [List.foldl_cons]
    have step : mergeStep (cur, n) x = (cur, n) := by simp [mergeStep, hx]
    rw [step]
    exact foldl_mergeStep_noop xs cur n fun y hy =>
      h y (List.mem_cons_of_mem _ hy)

/-- C2 counterexample: the store `{"history": ["a"], "favorites": []}`
and a document whose favorites list `[]` shares zero entries with the
store's favorites but whose history `["a"]` overlaps the store's
history: the merge reports 0 added history entries where the claim
demands `len(imported.history) = 1`. -/
theorem import_counts_counterexample :
    (∀ f ∈ ([] : List Favorite),
        f ∉ (Store.mk ["a"] []).favorites) ∧
    (import_deeplinks ⟨["a"], []⟩
        (Doc.dict (some []) (some ["a"]))).2 = Except.ok (0, 0) ∧
    ((0 : Nat), (0 : Nat))
        ≠ (([] : List Favorite).length, (["a"] : List String).length) := by
  refine ⟨?_, rfl, by decide⟩
  intro f hf
  exact absurd hf (List.not_mem_nil f)

/-- C2 (amended): for a dict document with a `favorites` key, if the
imported favorites and history lists are duplicate-free and disjoint
from the corresponding store lists, the merge adds exactly
`len(imported.favorites)` favorites and `len(imported.history)`
history entries, counted per list; and re-importing the same document
into the merged store always adds zero entries to either list and
leaves the store unchanged. -/
theorem import_merge_counts_idempotent (s : Store) (fs : List Favorite)
    (hist : List String) :
    (fs.Nodup → (∀ f ∈ fs, f ∉ s.favorites) →
     hist.Nodup → (∀ l ∈ hist, l ∉ s.history) →
      (import_deeplinks s (Doc.dict (some fs) (some hist))).2
        = Except.ok (fs.length, hist.length)) ∧
    (import_deeplinks
        (import_deeplinks s (Doc.dict (some fs) (some hist))).1
        (Doc.dict (some fs) (some hist))
      = ((import_deeplinks s (Doc.dict (some fs) (some hist))).1,
         Except.ok (0, 0))) := by
  constructor
  · intro hfnd hfd hhnd hhd
    simp only [import_deeplinks, mergeList, Option.getD_some]
    rw [foldl_mergeStep_disjoint fs s.favorites 0 hfnd hfd,
      foldl_mergeStep_disjoint hist s.history 0 hhnd hhd]
    simp
  · simp only [import_deeplinks, mergeList, Option.getD_some]
    rw [foldl_mergeStep_noop fs _ 0 fun f hf =>
        foldl_mergeStep_mem fs (s.favorites, 0) f (Or.inl hf),
      foldl_mergeStep_noop hist _ 0 fun l hl =>
        foldl_mergeStep_mem hist (s.history, 0) l (Or.inl hl)]

theorem import_merge_counts_idempotent_witness :
    (import_deeplinks ⟨[], []⟩
        (Doc.dict (some [⟨"n", "d"⟩]) (some ["h"]))).2
      = Except.ok (1, 1) ∧
    import_deeplinks
        (import_deeplinks ⟨[], []⟩
          (Doc.dict (some [⟨"n", "d"⟩]) (some ["h"]))).1
        (Doc.dict (some [⟨"n", "d"⟩]) (some ["h"]))
      = ((import_deeplinks ⟨[], []⟩
          (Doc.dict (some [⟨"n", "d"⟩]) (some ["h"]))).1,
         Except.ok (0, 0)) := by
  have h := import_merge_counts_idempotent ⟨[], []⟩ [⟨"n", "d"⟩] ["h"]
  exact ⟨h.1 (by simp) (by simp) (by simp) (by simp), h.2⟩

/-- Source method `DeeplinkLauncher.add_to_favorites` (lines 354-366): strip the
input; an empty deep-link or a cancelled/empty name dialog is a no-op;
otherwise append `{name, deeplink}` and save. -/
def add_to_favorites (s : Store) (input : String) (ok : Bool)
    (name : String) : Store :=
  let deeplink := pyStrip input
  if deeplink = "" then s
  else if ok = false ∨ name = "" then s
  else { s with favorites := s.favorites ++ [⟨name, deeplink⟩] }

/-- The in-place `fav["name"] = new_name` of line 381, at a given
position of the favorites list. -/
def renameAt : List Favorite → Nat → String → List Favorite
  | [], _, _ => []
  | f :: fs, 0, n => { f with name := n } :: fs
  | f :: fs, i + 1, n => f :: renameAt fs i n

/-- Source method `DeeplinkLauncher.rename_favorite` (lines 368-383).  `row` is the
widget's `currentRow()` (an `Int`, `-1` when nothing is selected);
`ok` and `newName` are the outcome of the name dialog.  A negative row
returns early; a row beyond the list raises an uncaught `IndexError`
at `self.data["favorites"][row]` (before the dialog), flagged in the
`Bool` component, with the store untouched; a cancelled dialog or an
empty new name returns without mutating; otherwise the name is
replaced in place and the store saved. -/
def rename_favorite (s : Store) (row : Int) (ok : Bool)
    (newName : String) : Store × Bool :=
  if row < 0 then (s, false)
  else if s.favorites.length ≤ row.toNat then (s, true)
  else if ok = false ∨ newName = "" then (s, false)
  else ({ s with favorites := renameAt s.favorites row.toNat newName },
    false)

/-- Source method `DeeplinkLauncher.delete_favorite` (lines 385-402).  Same row
conventions as `rename_favorite`; `confirm` is the user's answer to
the confirmation dialog.  A negative row returns early; a row beyond
the list raises an uncaught `IndexError` (flagged, store untouched);
with confirmation the entry is deleted and the store saved, otherwise
nothing happens. -/
def delete_favorite (s : Store) (row : Int) (confirm : Bool) :
    Store × Bool :=
  if row < 0 then (s, false)
  else if s.favorites.length ≤ row.toNat then (s, true)
  else if confirm then
    ({ s with favorites := s.favorites.eraseIdx row.toNat }, false)
  else (s, false)

/-- Source method `DeeplinkLauncher.clear_favorite` (lines 404-415): empty the
favorites list when confirmed. -/
def clear_favorite (s : Store) (confirm : Bool) : Store :=
  if confirm then { s with favorites := [] } else s

/-- Source method `DeeplinkLauncher.clear_history` (lines 417-431): a no-op on an
already-empty history; otherwise empty it when confirmed. -/
def clear_history (s : Store) (confirm : Bool) : Store :=
  if s.history = [] then s
  else if confirm then { s with history := [] } else s

/-- C6: deleting a favorite at an out-of-range row (negative, or at
least the length of the favorites list) leaves the store — favorites
and history — exactly as it was, whatever the confirmation answer. -/
theorem delete_favorite_out_of_range_noop (s : Store) (row : Int)
    (confirm : Bool)
    (h : row < 0 ∨ s.favorites.length ≤ row.toNat) :
    (delete_favorite s row confirm).1 = s := by
  rcases h with h | h
  · simp [delete_favorite, h]
  · by_cases hr : row < 0
    · simp [delete_favorite, hr]
    · simp [delete_favorite, hr, h]

theorem delete_favorite_out_of_range_noop_witness :
    (delete_favorite ⟨["a"], [⟨"n", "d"⟩]⟩ 5 true).1
        = ⟨["a"], [⟨"n", "d"⟩]⟩ ∧
    (delete_favorite ⟨["a"], [⟨"n", "d"⟩]⟩ (-1) true).1
        = ⟨["a"], [⟨"n", "d"⟩]⟩ :=
  ⟨delete_favorite_out_of_range_noop _ 5 true (Or.inr (by decide)),
   delete_favorite_out_of_range_noop _ (-1) true (Or.inl (by decide))⟩

/-- The function `renameAt` keeps the length of the list. -/
theorem renameAt_length :
    ∀ (l : List Favorite) (i : Nat) (n : String),
      (renameAt l i n).length = l.length
  | [], _, _ => rfl
  | _ :: _, 0, _ => rfl
  | f :: fs, i + 1, n => by
    simp [renameAt, renameAt_length fs i n]

/-- At the renamed position, only the name changes. -/
theorem renameAt_getD_self :
    ∀ (l : List Favorite) (i : Nat) (n : String) (d : Favorite),
      i < l.length →
      (renameAt l i n).getD i d = { l.getD i d with name := n }
  | [], i, _, _, h => absurd h (by simp)
  | _ :: _, 0, _, _, _ => rfl
  | f :: fs, i + 1, n, d, h => by
    simp only [renameAt, List.getD_cons_succ]
    exact renameAt_getD_self fs i n d (by simpa using h)

/-- Away from the renamed position, nothing changes. -/
theorem renameAt_getD_ne (l : List Favorite) :
    ∀ (i j : Nat) (n : String) (d : Favorite), j ≠ i →
      (renameAt l i n).getD j d = l.getD j d := by
  induction l with
  | nil => intro i j n d _; rfl
  | cons f fs ih =>
    intro i j n d h
    cases i with
    | zero =>
      cases j with
      | zero => exact absurd rfl h
      | succ j => simp [renameAt, List.getD_cons_succ]
    | succ i =>
      cases j with
      | zero => simp [renameAt]
      | succ j =>
        simp only [renameAt, List.getD_cons_succ]
        exact ih i j n d fun hh => h (by rw [hh])

/-- C7 counterexample: renaming at row 1 of an empty favorites list is
not a silent no-op — the source raises an uncaught `IndexError` at
`self.data["favorites"][row]` (the `true` flag), though the store is
left untouched. -/
theorem rename_favorite_not_silent_counterexample :
    (rename_favorite ⟨[], []⟩ 1 true "New").2 = true ∧
    (rename_favorite ⟨[], []⟩ 1 true "New").1 = ⟨[], []⟩ :=
  ⟨rfl, rfl⟩

/-- C7 (amended): a negative row, a cancelled dialog or an empty new
name is a silent no-op; a row at or beyond the favorites length raises
an uncaught `IndexError` before the dialog, leaving the store
unchanged; otherwise only the name field at that row is replaced —
its deep-link and all other entries survive, history included — and
the store is persisted. -/
theorem rename_favorite_spec (s : Store) (row : Int) (ok : Bool)
    (newName : String) :
    (row < 0 → rename_favorite s row ok newName = (s, false)) ∧
    (0 ≤ row → s.favorites.length ≤ row.toNat →
      rename_favorite s row ok newName = (s, true)) ∧
    (0 ≤ row → row.toNat < s.favorites.length →
      (ok = false ∨ newName = "") →
      rename_favorite s row ok newName = (s, false)) ∧
    (0 ≤ row → row.toNat < s.favorites.length → ok = true →
      newName ≠ "" →
      (rename_favorite s row ok newName).2 = false ∧
      (rename_favorite s row ok newName).1.history = s.history ∧
      (rename_favorite s row ok newName).1.favorites.length
          = s.favorites.length ∧
      ((rename_favorite s row ok newName).1.favorites.getD row.toNat
          ⟨"", ""⟩).name = newName ∧
      ((rename_favorite s row ok newName).1.favorites.getD row.toNat
          ⟨"", ""⟩).deeplink
          = (s.favorites.getD row.toNat ⟨"", ""⟩).deeplink ∧
      (∀ j, j ≠ row.toNat →
        (rename_favorite s row ok newName).1.favorites.getD j ⟨"", ""⟩
            = s.favorites.getD j ⟨"", ""⟩)) := by
  refine ⟨fun h => ?_, fun h0 hlen => ?_, fun h0 hlt hc => ?_,
    fun h0 hlt hok hn => ?_⟩
  · simp [rename_favorite, h]
  · have hr : ¬ row < 0 := Int.not_lt.mpr h0
    simp [rename_favorite, hr, hlen]
  · have hr : ¬ row < 0 := Int.not_lt.mpr h0
    have hl : ¬ s.favorites.length ≤ row.toNat := Nat.not_le.mpr hlt
    simp only [rename_favorite, if_neg hr, if_neg hl, if_pos hc]
  · have hr : ¬ row < 0 := Int.not_lt.mpr h0
    have hl : ¬ s.favorites.length ≤ row.toNat := Nat.not_le.mpr hlt
    have hc : ¬ (ok = false ∨ newName = "") := by
      subst hok
      rintro (hc | hc)
      · exact Bool.noConfusion hc
      · exact hn hc
    simp only [rename_favorite, if_neg hr, if_neg hl, if_neg hc]
    refine ⟨by trivial, by trivial, renameAt_length _ _ _, ?_, ?_,
      fun j hj => renameAt_getD_ne _ _ _ _ _ hj⟩
    · rw [renameAt_getD_self _ _ _ _ hlt]
    · rw [renameAt_getD_self _ _ _ _ hlt]

theorem rename_favorite_spec_witness :
    ((rename_favorite (add_to_favorites ⟨[], []⟩ "app://home" true
        "Home") 0 true "Main").1.favorites.getD 0 ⟨"", ""⟩).name
      = "Main" ∧
    ((rename_favorite (add_to_favorites ⟨[], []⟩ "app://home" true
        "Home") 0 true "Main").1.favorites.getD 0 ⟨"", ""⟩).deeplink
      = "app://home" := by
  have h := (rename_favorite_spec
      (add_to_favorites ⟨[], []⟩ "app://home" true "Home") 0 true
      "Main").2.2.2 (by decide) (by decide) rfl (by decide)
  exact ⟨h.2.2.2.1, Eq.trans h.2.2.2.2.1 (by decide)⟩

/-- The merge loop never introduces a duplicate: it only appends
elements that are absent from the accumulated list. -/
theorem foldl_mergeStep_nodup {α : Type} [DecidableEq α] :
    ∀ (imp : List α) (p : List α × Nat), p.1.Nodup →
      (imp.foldl mergeStep p).1.Nodup
  | [], _, h => h
  | x :: xs, p, h => by
    rw [List.foldl_cons]
    apply foldl_mergeStep_nodup xs
    unfold mergeStep
    split
    · exact h
    · rename_i hx
      rw [List.nodup_append]
      exact ⟨h, List.nodup_singleton x,
        fun a ha hax => hx ((List.mem_singleton.mp hax) ▸ ha)⟩

/-- One user action on the store, with every external outcome
(dialog answers, selected rows, imported documents) explicit. -/
inductive Op where
  | record (deeplink : String)
  | importDoc (doc : Doc)
  | clearHistory (confirm : Bool)
  | addFavorite (input : String) (ok : Bool) (name : String)
  | renameFavorite (row : Int) (ok : Bool) (newName : String)
  | deleteFavorite (row : Int) (confirm : Bool)
  | clearFavorites (confirm : Bool)

/-- The store transition performed by one action. -/
def applyOp (s : Store) : Op → Store
  | Op.record d => (recordLaunch s d).1
  | Op.importDoc doc => (import_deeplinks s doc).1
  | Op.clearHistory c => clear_history s c
  | Op.addFavorite i ok n => add_to_favorites s i ok n
  | Op.renameFavorite r ok n => (rename_favorite s r ok n).1
  | Op.deleteFavorite r c => (delete_favorite s r c).1
  | Op.clearFavorites c => clear_favorite s c

/-- A whole session of store actions. -/
def applyOps (s : Store) (ops : List Op) : Store :=
  ops.foldl applyOp s

/-- Each single action keeps the history free of duplicates. -/
theorem applyOp_history_nodup (s : Store) (op : Op)
    (h : s.history.Nodup) : (applyOp s op).history.Nodup := by
  cases op with
  | record d =>
    simp only [applyOp, recordLaunch]
    split
    · exact h
    · rename_i hd
      exact List.nodup_cons.mpr ⟨hd, h⟩
  | importDoc doc =>
    cases doc with
    | notDict => exact h
    | dict favs hist =>
      cases favs with
      | none => exact h
      | some fs =>
        simp only [applyOp, import_deeplinks, mergeList]
        exact foldl_mergeStep_nodup _ _ h
  | clearHistory c =>
    simp only [applyOp, clear_history]
    split
    · exact h
    · split
      · simp
      · exact h
  | addFavorite i ok n =>
    simp only [applyOp, add_to_favorites]
    split
    · exact h
    · split
      · exact h
      · exact h
  | renameFavorite r ok n =>
    simp only [applyOp, rename_favorite]
    split
    · exact h
    · split
      · exact h
      · split
        · exact h
        · exact h
  | deleteFavorite r c =>
    simp only [applyOp, delete_favorite]
    split
    · exact h
    · split
      · exact h
      · split
        · exact h
        · exact h
  | clearFavorites c =>
    simp only [applyOp, clear_favorite]
    split
    · exact h
    · exact h

/-- C9: a duplicate-free history stays duplicate-free under every
sequence of store operations (recording a launch, importing, clearing
history, and all favorites operations). -/
theorem history_nodup_invariant (s : Store) (ops : List Op)
    (h : s.history.Nodup) : (applyOps s ops).history.Nodup := by
  induction ops generalizing s with
  | nil => exact h
  | cons op rest ih => exact ih (applyOp s op) (applyOp_history_nodup s op h)

theorem history_nodup_invariant_witness :
    (applyOps ⟨["a"], []⟩
      [Op.record "b",
       Op.importDoc (Doc.dict (some []) (some ["a", "c"])),
       Op.clearFavorites true]).history.Nodup := by
  exact history_nodup_invariant ⟨["a"], []⟩ _ (by simp)

end DeeplinkRunner
